import Mathlib

/-!
Shallow embedding of the ledger directive processor of `src/core/process.rs`.

Rust `HashMap`s are modelled as association lists with content semantics:
`lookupKV` finds the value stored under a key, `insertKV` replaces an existing
binding in place or appends a fresh one.  Decimal numbers (the Rust crate's
arbitrary-precision decimals) are modelled as rationals `ℚ`: the code only
uses clone, sub, neg, add and numeric equality on them, all of which are
exact on `ℚ`.  `NaiveDate`/`NaiveDateTime` are modelled as `Nat` ordinals;
only equality and use as a map key matter to the processor.

Parts of the repository referenced from `src/core/process.rs` but whose files
are not among the sources (`core/ledger.rs`, `core/data.rs`,
`core/utils/price_grip.rs`) are modelled from the spec; each such definition
says so in its doc comment.
-/

namespace Avaro

/-- Lookup in an association list (the first binding wins, as in a `HashMap`
where keys are unique). -/
def lookupKV {κ α : Type} [DecidableEq κ] : List (κ × α) → κ → Option α
  | [], _ => none
  | (k, v) :: rest, key => if k = key then some v else lookupKV rest key

/-- Insert into an association list: replace the existing binding in place,
or append a fresh binding.  Models `HashMap::insert` / `entry().or_insert`
followed by mutation, up to the (irrelevant) iteration order. -/
def insertKV {κ α : Type} [DecidableEq κ] : List (κ × α) → κ → α → List (κ × α)
  | [], key, val => [(key, val)]
  | (k, v) :: rest, key, val =>
      if k = key then (k, val) :: rest else (k, v) :: insertKV rest key val

/-- An amount: a decimal number together with its commodity
(`core/amount.rs`, modelled from the spec: `(number: Decimal, commodity)`). -/
structure Amount where
  number : ℚ
  currency : String
deriving DecidableEq, Repr

/-- An inventory: commodity → decimal.  Modelled from the spec:
`core/inventory.rs` is not among the sources; the spec says `add(a)` mutates
in place, creating the key if absent, and `get` returns zero for an absent
key. -/
abbrev Inventory : Type := List (String × ℚ)

/-- `AccountSnapshot::get`: the stored value, or zero if the commodity is
absent.  Modelled from the spec (`core/ledger.rs` is not among the
sources). -/
def inventoryGet (inv : Inventory) (c : String) : ℚ :=
  (lookupKV inv c).getD 0

/-- `AccountSnapshot::add_amount`: `inventory[a.commodity] += a.number`,
creating the key if absent.  Modelled from the spec (`core/ledger.rs` is not
among the sources).  The snapshot's shared price-grip handle carries no
per-account state and is kept once on the ledger. -/
def addAmount (inv : Inventory) (c : String) (n : ℚ) : Inventory :=
  insertKV inv c (inventoryGet inv c + n)

/-- Account status, as in `core/ledger.rs` (modelled from the spec:
status is Open or Close). -/
inductive AccountStatus where
  | Open
  | Close
deriving DecidableEq, Repr

/-- `AccountInfo`: allowed commodities, status, metadata, as constructed in
`src/core/process.rs` (`Open`/`Close` processing). -/
structure AccountInfo where
  currencies : List String
  status : AccountStatus
  meta : List (String × String)
deriving DecidableEq, Repr

/-- The `Commodity` directive: a currency name plus metadata. -/
structure CommodityD where
  currency : String
  meta : List (String × String)
deriving DecidableEq, Repr

/-- `CurrencyInfo`: the declaring commodity directive plus observed prices
(keyed by target commodity and date, modelled from the spec since
`core/ledger.rs` is not among the sources). -/
structure CurrencyInfo where
  commodity : CommodityD
  prices : List ((String × Nat) × ℚ)
deriving DecidableEq, Repr

/-- Document records stored in the ledger (`DocumentType::AccountDocument`). -/
inductive DocumentType where
  | AccountDocument (date : Nat) (account : String) (filename : String)
deriving DecidableEq, Repr

/-- Accumulated ledger errors.  Only `AccountBalanceCheckError` is
constructed in `src/core/process.rs`; the other variants are modelled from
the spec's error list (`core/ledger.rs` is not among the sources) so that
their absence from the error log can be stated. -/
inductive LedgerError where
  | AccountBalanceCheckError (account_name : String) (target current distance : Amount)
  | TransactionNotBalanced
  | TransactionHasAccountAlreadyClosed
  | AccountClosedWithBalance
deriving DecidableEq, Repr

/-- The ledger aggregate, with the fields touched by
`src/core/process.rs`.  `prices` is the dated price grip, modelled from the
spec as a map keyed by (datetime, base, quote) since
`core/utils/price_grip.rs` is not among the sources;
`daily_snapshot` maps a date to a frozen account → inventory map. -/
structure Ledger where
  accounts : List (String × AccountInfo)
  currencies : List (String × CurrencyInfo)
  configs : List (String × String)
  documents : List (String × DocumentType)
  prices : List ((Nat × String × String) × ℚ)
  snapshot : List (String × Inventory)
  daily_snapshot : List (Nat × List (String × Inventory))
  errors : List LedgerError
deriving DecidableEq, Repr

/-- `ProcessContext`: the last date for which a daily snapshot is pending.
The context's shared price-grip handle aliases `Ledger.prices` and is not
duplicated here. -/
structure ProcessContext where
  target_day : Option Nat
deriving DecidableEq, Repr

/-- Per-account read of the running snapshot:
`ledger.snapshot.get(account).unwrap_or(default).get(commodity)`; an absent
account behaves as an empty snapshot, so every commodity reads zero. -/
def snapGet (m : List (String × Inventory)) (account c : String) : ℚ :=
  inventoryGet ((lookupKV m account).getD []) c

/-- `ledger.snapshot.entry(account).or_insert_with(default).add_amount(...)`:
ensure the account has a snapshot entry (empty inventory when absent) and add
`n` of commodity `c` to it. -/
def snapshotAdd (m : List (String × Inventory)) (account c : String) (n : ℚ) :
    List (String × Inventory) :=
  insertKV m account (addAmount ((lookupKV m account).getD []) c n)

/-- `record_daily_snapshot` from `src/core/process.rs:33`: when a target day
is set and the incoming date differs, freeze a clone of the running snapshot
under the old target day and move the target day forward; when no target day
is set, just set it.  (Rust's deep `clone()` of the map is the value
itself here.)  Returns the updated `(daily_snapshot, target_day)`; the
running snapshot is only read. -/
def record_daily_snapshot (snapshot : List (String × Inventory))
    (daily : List (Nat × List (String × Inventory)))
    (target_day : Option Nat) (date : Nat) :
    List (Nat × List (String × Inventory)) × Option Nat :=
  match target_day with
  | some target_day_inner =>
      if date ≠ target_day_inner then
        (insertKV daily target_day_inner snapshot, some date)
      else
        (daily, some target_day_inner)
  | none => (daily, some date)

/-- The `Option` directive (`key`/`value`; `to_plain_string` on the parsed
values is modelled as the plain string itself). -/
structure OptionsD where
  key : String
  value : String
deriving DecidableEq, Repr

/-- The `Open` directive. -/
structure OpenD where
  date : Nat
  account : String
  commodities : List String
  meta : List (String × String)
deriving DecidableEq, Repr

/-- The `Close` directive. -/
structure CloseD where
  date : Nat
  account : String
  meta : List (String × String)
deriving DecidableEq, Repr

/-- One transaction posting, as consumed by the processor.  Modelled from
the spec (`core/data.rs` is not among the sources): `txn_postings()` yields
each posting with the units it contributes, so `units` here is the amount
`txn_posting.units()` returns for it. -/
structure Posting where
  account : String
  units : Amount
deriving DecidableEq, Repr

/-- The `Transaction` directive, restricted to the fields the processor
reads: its date and its postings.  (Flag, payee, narration, tags, links and
metadata are never read by `src/core/process.rs`.) -/
structure TransactionD where
  date : Nat
  postings : List Posting
deriving DecidableEq, Repr

/-- `Balance::BalanceCheck`: `current_amount` and `distance` start out unset
and are filled in by processing. -/
structure BalanceCheckD where
  date : Nat
  account : String
  amount : Amount
  current_amount : Option Amount
  distance : Option Amount
deriving DecidableEq, Repr

/-- `Balance::BalancePad`. -/
structure BalancePadD where
  date : Nat
  account : String
  amount : Amount
  pad : String
deriving DecidableEq, Repr

/-- The `Balance` directive: a check or a pad. -/
inductive BalanceD where
  | BalanceCheck (bc : BalanceCheckD)
  | BalancePad (bp : BalancePadD)
deriving DecidableEq, Repr

/-- The `Price` directive: `self.date.naive_datetime()` is the `datetime`
ordinal, `currency` the base commodity, `amount` the rate in the quote
commodity. -/
structure PriceD where
  datetime : Nat
  currency : String
  amount : Amount
deriving DecidableEq, Repr

/-- The `Document` directive. -/
structure DocumentD where
  date : Nat
  account : String
  filename : String
deriving DecidableEq, Repr

/-- Modelled from the spec: the per-commodity residual of a transaction's
contributed units (`core/data.rs`, which defines `is_balance`, is not among
the sources).  Sums the numbers of all postings in commodity `c`. -/
def txnResidual (t : TransactionD) (c : String) : ℚ :=
  t.postings.foldl (fun acc p => if p.units.currency = c then acc + p.units.number else acc) 0

/-- Modelled from the spec: `Transaction::is_balance` holds when every
commodity's residual is within the default tolerance `0.005`
(`core/data.rs` is not among the sources).  Its result only feeds a log
line in `src/core/process.rs:114`, so it has no effect on ledger state. -/
def txnIsBalanced (t : TransactionD) : Bool :=
  (t.postings.map (fun p => p.units.currency)).all
    (fun c => decide (|txnResidual t c| ≤ 1 / 200))

/-- `impl DirectiveProcess for Options` (`src/core/process.rs:47`). -/
def processOptions (o : OptionsD) (l : Ledger) : Ledger :=
  { l with configs := insertKV l.configs o.key o.value }

/-- `impl DirectiveProcess for Open` (`src/core/process.rs:56`): ensure the
account entry exists (default status `Open`), set status to `Open`, merge
the meta pairs, union the commodities. -/
def processOpen (o : OpenD) (l : Ledger) : Ledger :=
  let info := (lookupKV l.accounts o.account).getD ⟨[], AccountStatus.Open, []⟩
  let info1 : AccountInfo :=
    { currencies :=
        o.commodities.foldl (fun cs c => if c ∈ cs then cs else cs ++ [c]) info.currencies
      status := AccountStatus.Open
      meta := o.meta.foldl (fun m kv => insertKV m kv.1 kv.2) info.meta }
  { l with accounts := insertKV l.accounts o.account info1 }

/-- `impl DirectiveProcess for Close` (`src/core/process.rs:79`): ensure the
account entry exists, set status to `Close`, merge the meta pairs.  No
balance is inspected and no error is pushed. -/
def processClose (c : CloseD) (l : Ledger) : Ledger :=
  let info := (lookupKV l.accounts c.account).getD ⟨[], AccountStatus.Open, []⟩
  let info1 : AccountInfo :=
    { currencies := info.currencies
      status := AccountStatus.Close
      meta := c.meta.foldl (fun m kv => insertKV m kv.1 kv.2) info.meta }
  { l with accounts := insertKV l.accounts c.account info1 }

/-- `impl DirectiveProcess for Commodity` (`src/core/process.rs:99`): insert
a fresh `CurrencyInfo` only when the commodity is absent. -/
def processCommodity (c : CommodityD) (l : Ledger) : Ledger :=
  match lookupKV l.currencies c.currency with
  | some _ => l
  | none => { l with currencies := insertKV l.currencies c.currency ⟨c, []⟩ }

/-- `impl DirectiveProcess for Transaction` (`src/core/process.rs:112`):
the `is_balance` check only logs (no state effect), then
`record_daily_snapshot`, then every posting's units are added to its
account's snapshot entry (created with the default empty snapshot when
absent).  Nothing is pushed onto `ledger.errors` and `ledger.accounts` is
never touched. -/
def processTransaction (t : TransactionD) (l : Ledger) (ctx : ProcessContext) :
    Ledger × ProcessContext :=
  let r := record_daily_snapshot l.snapshot l.daily_snapshot ctx.target_day t.date
  let snap :=
    t.postings.foldl (fun m p => snapshotAdd m p.account p.units.currency p.units.number)
      l.snapshot
  ({ l with snapshot := snap, daily_snapshot := r.1 }, ⟨r.2⟩)

/-- `impl DirectiveProcess for Balance` (`src/core/process.rs:136`).  The
check arm reads the current amount through `get(...).unwrap_or(default)`
(never inserting), records `current_amount`, and on an exact decimal
mismatch records `distance` and pushes an `AccountBalanceCheckError`; the
pad arm adds the distance to the checked account and its negation to the
pad account, creating entries as needed.  Returns the updated directive as
well, since the check arm mutates `self`. -/
def processBalance (b : BalanceD) (l : Ledger) (ctx : ProcessContext) :
    Ledger × ProcessContext × BalanceD :=
  match b with
  | BalanceD.BalanceCheck bc =>
      let r := record_daily_snapshot l.snapshot l.daily_snapshot ctx.target_day bc.date
      let decimal := snapGet l.snapshot bc.account bc.amount.currency
      let bc1 : BalanceCheckD :=
        { bc with current_amount := some ⟨decimal, bc.amount.currency⟩ }
      if decimal ≠ bc.amount.number then
        let bc2 : BalanceCheckD :=
          { bc1 with distance := some ⟨bc.amount.number - decimal, bc.amount.currency⟩ }
        ({ l with
            daily_snapshot := r.1
            errors := l.errors ++
              [LedgerError.AccountBalanceCheckError bc.account
                ⟨bc.amount.number, bc.amount.currency⟩
                ⟨decimal, bc.amount.currency⟩
                ⟨bc.amount.number - decimal, bc.amount.currency⟩] },
         ⟨r.2⟩, BalanceD.BalanceCheck bc2)
      else
        ({ l with daily_snapshot := r.1 }, ⟨r.2⟩, BalanceD.BalanceCheck bc1)
  | BalanceD.BalancePad bp =>
      let r := record_daily_snapshot l.snapshot l.daily_snapshot ctx.target_day bp.date
      let source_amount := snapGet l.snapshot bp.account bp.amount.currency
      let distance := bp.amount.number - source_amount
      let snap1 := snapshotAdd l.snapshot bp.account bp.amount.currency distance
      let snap2 := snapshotAdd snap1 bp.pad bp.amount.currency (-distance)
      ({ l with snapshot := snap2, daily_snapshot := r.1 }, ⟨r.2⟩, b)

/-- `impl DirectiveProcess for Document` (`src/core/process.rs:215`):
documents are keyed by filename, duplicates overwrite. -/
def processDocument (d : DocumentD) (l : Ledger) : Ledger :=
  { l with
      documents :=
        insertKV l.documents d.filename (DocumentType.AccountDocument d.date d.account d.filename) }

/-- `impl DirectiveProcess for Price` (`src/core/process.rs:229`): the rate
is inserted into the shared price grip under (datetime, base, quote).  The
grip's `insert` is modelled from the spec as a keyed-map insert
(`core/utils/price_grip.rs` is not among the sources).  No other ledger
field — in particular `ledger.currencies` — is touched. -/
def processPrice (p : PriceD) (l : Ledger) : Ledger :=
  { l with
      prices := insertKV l.prices (p.datetime, p.currency, p.amount.currency) p.amount.number }

/-- The directive stream fed to the processor. -/
inductive Directive where
  | options (o : OptionsD)
  | openAcc (o : OpenD)
  | closeAcc (c : CloseD)
  | commodity (c : CommodityD)
  | transaction (t : TransactionD)
  | balance (b : BalanceD)
  | document (d : DocumentD)
  | price (p : PriceD)
deriving DecidableEq, Repr

/-- Dispatch of one directive, as the processor's per-type `process` calls. -/
def processDirective (d : Directive) (s : Ledger × ProcessContext) : Ledger × ProcessContext :=
  match d with
  | Directive.options o => (processOptions o s.1, s.2)
  | Directive.openAcc o => (processOpen o s.1, s.2)
  | Directive.closeAcc c => (processClose c s.1, s.2)
  | Directive.commodity c => (processCommodity c s.1, s.2)
  | Directive.transaction t => processTransaction t s.1 s.2
  | Directive.balance b =>
      let r := processBalance b s.1 s.2
      (r.1, r.2.1)
  | Directive.document d => (processDocument d s.1, s.2)
  | Directive.price p => (processPrice p s.1, s.2)

/-- Sequential processing of a directive stream. -/
def processAll : List Directive → Ledger × ProcessContext → Ledger × ProcessContext
  | [], s => s
  | d :: ds, s => processAll ds (processDirective d s)

/-- Equality of every ledger field except `daily_snapshot` (the directly
queryable state: accounts, commodities, options, documents, prices, running
snapshot and the error log). -/
abbrev sameCore (a b : Ledger) : Prop :=
  a.accounts = b.accounts ∧ a.currencies = b.currencies ∧ a.configs = b.configs ∧
    a.documents = b.documents ∧ a.prices = b.prices ∧ a.snapshot = b.snapshot ∧
    a.errors = b.errors

/-- The last binding for a key in a directive's meta list: the binding a
left-to-right merge of the list into a map ends up with. -/
def lookupLast : List (String × String) → String → Option String
  | [], _ => none
  | (k, v) :: rest, key =>
      match lookupLast rest key with
      | some w => some w
      | none => if k = key then some v else none

theorem lookupKV_insertKV_self {κ α : Type} [DecidableEq κ]
    (m : List (κ × α)) (k : κ) (v : α) :
    lookupKV (insertKV m k v) k = some v := by
  induction m with
  | nil => simp [insertKV, lookupKV]
  | cons hd tl ih =>
      obtain ⟨a, b⟩ := hd
      by_cases h : a = k
      · simp [insertKV, h, lookupKV]
      · simp [insertKV, h, lookupKV, ih]

theorem lookupKV_insertKV_ne {κ α : Type} [DecidableEq κ]
    (m : List (κ × α)) (k k' : κ) (v : α) (h : k' ≠ k) :
    lookupKV (insertKV m k v) k' = lookupKV m k' := by
  have hk : ¬ k = k' := fun h' => h h'.symm
  induction m with
  | nil => simp [insertKV, lookupKV, hk]
  | cons hd tl ih =>
      obtain ⟨a, b⟩ := hd
      by_cases ha : a = k
      · subst ha
        simp [insertKV, lookupKV, hk]
      · simp [insertKV, lookupKV, ha, ih]

theorem lookupKV_insertKV_isSome {κ α : Type} [DecidableEq κ]
    (m : List (κ × α)) (k k' : κ) (v : α) (h : (lookupKV m k').isSome = true) :
    (lookupKV (insertKV m k v) k').isSome = true := by
  by_cases hk : k' = k
  · subst hk
    simp [lookupKV_insertKV_self]
  · rwa [lookupKV_insertKV_ne m k k' v hk]

theorem inventoryGet_addAmount_self (inv : Inventory) (c : String) (n : ℚ) :
    inventoryGet (addAmount inv c n) c = inventoryGet inv c + n := by
  simp [inventoryGet, addAmount, lookupKV_insertKV_self]

theorem inventoryGet_addAmount_ne (inv : Inventory) (c c' : String) (n : ℚ) (h : c' ≠ c) :
    inventoryGet (addAmount inv c n) c' = inventoryGet inv c' := by
  simp [inventoryGet, addAmount, lookupKV_insertKV_ne _ _ _ _ h]

theorem snapGet_snapshotAdd_self (m : List (String × Inventory)) (a c : String) (n : ℚ) :
    snapGet (snapshotAdd m a c n) a c = snapGet m a c + n := by
  simp [snapGet, snapshotAdd, lookupKV_insertKV_self, inventoryGet_addAmount_self]

theorem snapGet_snapshotAdd_ne_acc (m : List (String × Inventory)) (a a' c c' : String)
    (n : ℚ) (h : a' ≠ a) :
    snapGet (snapshotAdd m a c n) a' c' = snapGet m a' c' := by
  simp [snapGet, snapshotAdd, lookupKV_insertKV_ne _ _ _ _ h]

theorem snapGet_snapshotAdd_ne_commodity (m : List (String × Inventory)) (a c c' : String)
    (n : ℚ) (h : c' ≠ c) :
    snapGet (snapshotAdd m a c n) a c' = snapGet m a c' := by
  simp [snapGet, snapshotAdd, lookupKV_insertKV_self, inventoryGet_addAmount_ne _ _ _ _ h]

theorem lookupKV_foldl_insert (l : List (String × String)) (m0 : List (String × String))
    (k : String) :
    lookupKV (l.foldl (fun m kv => insertKV m kv.1 kv.2) m0) k =
      match lookupLast l k with
      | some v => some v
      | none => lookupKV m0 k := by
  induction l generalizing m0 with
  | nil => simp [lookupLast]
  | cons hd tl ih =>
      obtain ⟨a, b⟩ := hd
      rw [List.foldl_cons, ih]
      rcases htl : lookupLast tl k with _ | w
      · by_cases hk : a = k
        · subst hk
          simp [lookupLast, htl, lookupKV_insertKV_self]
        · have hk' : k ≠ a := fun h => hk h.symm
          simp [lookupLast, htl, hk, lookupKV_insertKV_ne _ _ _ _ hk']
      · simp [lookupLast, htl]

theorem lookupKV_snapshotAdd_isSome (m : List (String × Inventory)) (acc a c : String)
    (n : ℚ) (h : (lookupKV m a).isSome = true) :
    (lookupKV (snapshotAdd m acc c n) a).isSome = true := by
  simp only [snapshotAdd]
  exact lookupKV_insertKV_isSome _ _ _ _ h

theorem lookupKV_snapshotAdd_self_isSome (m : List (String × Inventory)) (acc c : String)
    (n : ℚ) :
    (lookupKV (snapshotAdd m acc c n) acc).isSome = true := by
  simp [snapshotAdd, lookupKV_insertKV_self]

theorem lookupKV_foldl_snapshotAdd_isSome (ps : List Posting)
    (m : List (String × Inventory)) (a : String) (h : (lookupKV m a).isSome = true) :
    (lookupKV
        (ps.foldl (fun m p => snapshotAdd m p.account p.units.currency p.units.number) m)
        a).isSome = true := by
  induction ps generalizing m with
  | nil => simpa using h
  | cons p tl ih =>
      rw [List.foldl_cons]
      exact ih _ (lookupKV_snapshotAdd_isSome _ _ _ _ _ h)

theorem mem_postings_foldl_isSome (ps : List Posting) (m : List (String × Inventory))
    (p : Posting) (hp : p ∈ ps) :
    (lookupKV
        (ps.foldl (fun m p => snapshotAdd m p.account p.units.currency p.units.number) m)
        p.account).isSome = true := by
  induction ps generalizing m with
  | nil => cases hp
  | cons q tl ih =>
      rw [List.foldl_cons]
      rcases List.mem_cons.mp hp with h | h
      · subst h
        exact lookupKV_foldl_snapshotAdd_isSome tl _ _
          (lookupKV_snapshotAdd_self_isSome _ _ _ _)
      · exact ih _ h

/-- The amount a transaction's postings contribute to account `a` in
commodity `c`: the sum of the units of the postings on `a` in `c`. -/
def postingsContrib : List Posting → String → String → ℚ
  | [], _, _ => 0
  | p :: ps, a, c =>
      (if p.account = a ∧ p.units.currency = c then p.units.number else 0) +
        postingsContrib ps a c

theorem snapGet_foldl_postings (ps : List Posting) (m : List (String × Inventory))
    (a c : String) :
    snapGet (ps.foldl (fun m p => snapshotAdd m p.account p.units.currency p.units.number) m)
        a c =
      snapGet m a c + postingsContrib ps a c := by
  induction ps generalizing m with
  | nil => simp [postingsContrib]
  | cons p tl ih =>
      rw [List.foldl_cons, ih]
      by_cases hacc : p.account = a
      · by_cases hc : p.units.currency = c
        · rw [hacc, hc, snapGet_snapshotAdd_self]
          simp [postingsContrib, hacc, hc]
          ring
        · rw [hacc, snapGet_snapshotAdd_ne_commodity _ _ _ _ _ (fun h => hc h.symm)]
          simp [postingsContrib, hc]
      · rw [snapGet_snapshotAdd_ne_acc _ _ _ _ _ _ (fun h => hacc h.symm)]
        simp [postingsContrib, hacc]

theorem processAll_append (as bs : List Directive) (s : Ledger × ProcessContext) :
    processAll (as ++ bs) s = processAll bs (processAll as s) := by
  induction as generalizing s with
  | nil => rfl
  | cons d tl ih => simp [processAll, ih]

/-- Frame lemma: the directly queryable ledger state after one directive
depends only on the directly queryable state before it, never on
`daily_snapshot` or on the pending target day. -/
theorem sameCore_processDirective (d : Directive) (l1 l2 : Ledger)
    (c1 c2 : ProcessContext) (h : sameCore l1 l2) :
    sameCore (processDirective d (l1, c1)).1 (processDirective d (l2, c2)).1 := by
  obtain ⟨h1, h2, h3, h4, h5, h6, h7⟩ := h
  cases d with
  | options o =>
      exact ⟨h1, h2, by simp only [processDirective, processOptions]; rw [h3], h4, h5, h6, h7⟩
  | openAcc o =>
      exact ⟨by simp only [processDirective, processOpen]; rw [h1], h2, h3, h4, h5, h6, h7⟩
  | closeAcc c =>
      exact ⟨by simp only [processDirective, processClose]; rw [h1], h2, h3, h4, h5, h6, h7⟩
  | commodity c =>
      simp only [processDirective, processCommodity, h2]
      rcases lookupKV l2.currencies c.currency with _ | v
      · exact ⟨h1, rfl, h3, h4, h5, h6, h7⟩
      · exact ⟨h1, h2, h3, h4, h5, h6, h7⟩
  | transaction t =>
      exact ⟨h1, h2, h3, h4, h5,
        by simp only [processDirective, processTransaction]; rw [h6], h7⟩
  | balance b =>
      cases b with
      | BalanceCheck bc =>
          simp only [processDirective, processBalance, h6]
          by_cases hd : snapGet l2.snapshot bc.account bc.amount.currency = bc.amount.number
          · simp only [hd, ne_eq, not_true_eq_false, if_false, ite_false]
            exact ⟨h1, h2, h3, h4, h5, rfl, h7⟩
          · simp only [ne_eq, hd, not_false_eq_true, if_true, ite_true]
            exact ⟨h1, h2, h3, h4, h5, rfl, by rw [h7]⟩
      | BalancePad bp =>
          exact ⟨h1, h2, h3, h4, h5,
            by simp only [processDirective, processBalance]; rw [h6], h7⟩
  | document d =>
      exact ⟨h1, h2, h3, by simp only [processDirective, processDocument]; rw [h4], h5, h6, h7⟩
  | price p =>
      exact ⟨h1, h2, h3, h4, by simp only [processDirective, processPrice]; rw [h5], h6, h7⟩

theorem sameCore_processAll (ds : List Directive) (l1 l2 : Ledger)
    (c1 c2 : ProcessContext) (h : sameCore l1 l2) :
    sameCore (processAll ds (l1, c1)).1 (processAll ds (l2, c2)).1 := by
  induction ds generalizing l1 l2 c1 c2 with
  | nil => exact h
  | cons d tl ih =>
      simp only [processAll]
      exact ih (processDirective d (l1, c1)).1 (processDirective d (l2, c2)).1
        (processDirective d (l1, c1)).2 (processDirective d (l2, c2)).2
        (sameCore_processDirective d l1 l2 c1 c2 h)

/-- A balance check whose current amount equals the target leaves every
directly queryable ledger field unchanged. -/
theorem sameCore_processBalanceCheck_pass (bc : BalanceCheckD) (l : Ledger)
    (ctx : ProcessContext)
    (h : snapGet l.snapshot bc.account bc.amount.currency = bc.amount.number) :
    sameCore ((processBalance (BalanceD.BalanceCheck bc) l ctx).1) l := by
  simp only [processBalance, h, ne_eq, not_true_eq_false, if_false, ite_false]
  exact ⟨rfl, rfl, rfl, rfl, rfl, rfl, rfl⟩

/-- An empty ledger, used as a concrete sample input. -/
def L0 : Ledger := ⟨[], [], [], [], [], [], [], []⟩

/-- C1, counterexample.  The claim ties the balance-check error to the
tolerance `0.5·10^(−2) = 0.005`: no error may be recorded when the distance
stays within it.  But the check arm compares with exact decimal inequality
(`decimal.ne(&balance_check.amount.number)`, `src/core/process.rs:153`): a
check of `0.004 USD` against a current balance of `0` has
`|distance| = 1/250 ≤ 1/200`, yet an `AccountBalanceCheckError` is pushed. -/
theorem balance_check_tolerance_cex :
    |(1 : ℚ) / 250 - 0| ≤ 1 / 200 ∧
    ((processBalance
        (BalanceD.BalanceCheck ⟨1, "Assets:Cash", ⟨1 / 250, "USD"⟩, none, none⟩)
        L0 ⟨none⟩).1).errors =
      [LedgerError.AccountBalanceCheckError "Assets:Cash"
        ⟨1 / 250, "USD"⟩ ⟨0, "USD"⟩ ⟨1 / 250, "USD"⟩] := by
  constructor
  · rw [abs_le]
    norm_num
  · norm_num [processBalance, record_daily_snapshot, snapGet, inventoryGet, lookupKV, L0]

/-- C1 (amended): for every processed BalanceCheck, an
`AccountBalanceCheckError` carrying the account name, target amount,
current amount and distance `target − current` is appended to the ledger's
error list if and only if the current amount differs from the target
exactly — the comparison is exact decimal inequality, with no tolerance. -/
theorem balance_check_error_iff_exact_mismatch (l : Ledger) (ctx : ProcessContext)
    (bc : BalanceCheckD) :
    ((processBalance (BalanceD.BalanceCheck bc) l ctx).1).errors =
      (if snapGet l.snapshot bc.account bc.amount.currency = bc.amount.number then
        l.errors
      else
        l.errors ++
          [LedgerError.AccountBalanceCheckError bc.account
            ⟨bc.amount.number, bc.amount.currency⟩
            ⟨snapGet l.snapshot bc.account bc.amount.currency, bc.amount.currency⟩
            ⟨bc.amount.number - snapGet l.snapshot bc.account bc.amount.currency,
              bc.amount.currency⟩]) := by
  by_cases h : snapGet l.snapshot bc.account bc.amount.currency = bc.amount.number
  · simp [processBalance, h]
  · simp [processBalance, h]

/-- C2: `record_daily_snapshot(date)` sets an unset target day and changes
nothing else; when the target day is set and the date differs it freezes a
clone of the running snapshot under the old target day and moves the target
day to the date; when the date equals the target day it changes nothing. -/
theorem record_daily_snapshot_spec (snapshot : List (String × Inventory))
    (daily : List (Nat × List (String × Inventory))) (date : Nat) :
    record_daily_snapshot snapshot daily none date = (daily, some date) ∧
    (∀ t : Nat, date ≠ t →
      record_daily_snapshot snapshot daily (some t) date =
        (insertKV daily t snapshot, some date)) ∧
    record_daily_snapshot snapshot daily (some date) date = (daily, some date) := by
  refine ⟨rfl, ?_, ?_⟩
  · intro t ht
    simp [record_daily_snapshot, ht]
  · simp [record_daily_snapshot]

/-- C2, witness: the freezing case at a concrete snapshot and dates. -/
theorem record_daily_snapshot_spec_witness :
    (2 : Nat) ≠ 1 ∧
    record_daily_snapshot [("Assets:A", [("USD", (5 : ℚ))])] [] (some 1) 2 =
      (insertKV [] 1 [("Assets:A", [("USD", (5 : ℚ))])], some 2) :=
  ⟨by decide, (record_daily_snapshot_spec _ _ 2).2.1 1 (by decide)⟩

/-- C3: after `BalancePad(date, account, X of C, pad)` with
`account ≠ pad`, the account's balance in `C` equals `X.number`, the pad
account's balance in `C` has changed by `−(X.number − pre)` where `pre` is
the account's prior balance in `C` (zero when absent), and no error is
emitted. -/
theorem balance_pad_correct (l : Ledger) (ctx : ProcessContext) (bp : BalancePadD)
    (h : bp.account ≠ bp.pad) :
    snapGet ((processBalance (BalanceD.BalancePad bp) l ctx).1).snapshot bp.account
        bp.amount.currency = bp.amount.number ∧
    snapGet ((processBalance (BalanceD.BalancePad bp) l ctx).1).snapshot bp.pad
        bp.amount.currency =
      snapGet l.snapshot bp.pad bp.amount.currency -
        (bp.amount.number - snapGet l.snapshot bp.account bp.amount.currency) ∧
    ((processBalance (BalanceD.BalancePad bp) l ctx).1).errors = l.errors := by
  simp only [processBalance]
  refine ⟨?_, ?_, by trivial⟩
  · rw [snapGet_snapshotAdd_ne_acc _ _ _ _ _ _ h, snapGet_snapshotAdd_self]
    ring
  · rw [snapGet_snapshotAdd_self,
      snapGet_snapshotAdd_ne_acc _ _ _ _ _ _ (fun e => h e.symm)]
    ring

/-- C3, witness: the spec's pad scenario (500 USD against an empty ledger)
evaluated concretely. -/
theorem balance_pad_correct_witness :
    ("Assets:Cash" : String) ≠ "Equity:Pad" ∧
    (snapGet ((processBalance
        (BalanceD.BalancePad ⟨2, "Assets:Cash", ⟨500, "USD"⟩, "Equity:Pad"⟩)
        L0 ⟨none⟩).1).snapshot "Assets:Cash" "USD" = (500 : ℚ) ∧
     snapGet ((processBalance
        (BalanceD.BalancePad ⟨2, "Assets:Cash", ⟨500, "USD"⟩, "Equity:Pad"⟩)
        L0 ⟨none⟩).1).snapshot "Equity:Pad" "USD" =
       snapGet L0.snapshot "Equity:Pad" "USD" -
         ((500 : ℚ) - snapGet L0.snapshot "Assets:Cash" "USD") ∧
     ((processBalance
        (BalanceD.BalancePad ⟨2, "Assets:Cash", ⟨500, "USD"⟩, "Equity:Pad"⟩)
        L0 ⟨none⟩).1).errors = L0.errors) :=
  ⟨by decide,
    balance_pad_correct L0 ⟨none⟩ ⟨2, "Assets:Cash", ⟨500, "USD"⟩, "Equity:Pad"⟩ (by decide)⟩

/-- C4, counterexample.  The spec scenario S5: a transaction with explicit
postings `+10 USD` and `+5 USD` has a residual of `15 USD`, far beyond the
tolerance, yet `Transaction::process` pushes nothing onto `ledger.errors`
(`src/core/process.rs:112` only logs the imbalance): the error list stays
empty, so no `TransactionNotBalanced` is recorded. -/
theorem transaction_unbalanced_no_error_cex :
    |txnResidual ⟨2, [⟨"Assets:A", ⟨10, "USD"⟩⟩, ⟨"Assets:B", ⟨5, "USD"⟩⟩]⟩ "USD"| >
      1 / 200 ∧
    (processTransaction ⟨2, [⟨"Assets:A", ⟨10, "USD"⟩⟩, ⟨"Assets:B", ⟨5, "USD"⟩⟩]⟩
        L0 ⟨none⟩).1.errors = [] := by
  constructor
  · norm_num [txnResidual]
  · rfl

/-- C4 (amended): processing a Transaction never records any `LedgerError`
— an unbalanced transaction is only logged — while the explicit posting
amounts are still applied to the snapshot: every account's balance in every
commodity changes by exactly the sum of that transaction's postings on it. -/
theorem transaction_applies_amounts_no_errors (t : TransactionD) (l : Ledger)
    (ctx : ProcessContext) :
    (processTransaction t l ctx).1.errors = l.errors ∧
    (processTransaction t l ctx).1.accounts = l.accounts ∧
    ∀ a c : String,
      snapGet (processTransaction t l ctx).1.snapshot a c =
        snapGet l.snapshot a c + postingsContrib t.postings a c := by
  refine ⟨rfl, rfl, ?_⟩
  intro a c
  simp only [processTransaction]
  exact snapGet_foldl_postings t.postings l.snapshot a c

/-- C5: processing a BalanceCheck never adjusts any account balance — the
snapshot map is exactly preserved, pass or fail — and a directive stream
containing a passing BalanceCheck yields the same directly queryable state
(accounts, commodities, options, documents, prices, snapshot and error log)
as the stream with the BalanceCheck removed. -/
theorem balance_check_non_mutation (ds1 ds2 : List Directive) (bc : BalanceCheckD)
    (l : Ledger) (ctx : ProcessContext) :
    (∀ (l1 : Ledger) (c1 : ProcessContext),
      ((processBalance (BalanceD.BalanceCheck bc) l1 c1).1).snapshot = l1.snapshot) ∧
    (snapGet (processAll ds1 (l, ctx)).1.snapshot bc.account bc.amount.currency =
        bc.amount.number →
      sameCore
        (processAll (ds1 ++ Directive.balance (BalanceD.BalanceCheck bc) :: ds2)
          (l, ctx)).1
        (processAll (ds1 ++ ds2) (l, ctx)).1) := by
  constructor
  · intro l1 c1
    by_cases h : snapGet l1.snapshot bc.account bc.amount.currency = bc.amount.number <;>
      simp [processBalance, h]
  · intro hpass
    rw [processAll_append, processAll_append]
    show sameCore
      (processAll ds2
        (processDirective (Directive.balance (BalanceD.BalanceCheck bc))
          (processAll ds1 (l, ctx)))).1
      (processAll ds2 (processAll ds1 (l, ctx))).1
    apply sameCore_processAll
    exact sameCore_processBalanceCheck_pass bc (processAll ds1 (l, ctx)).1
      (processAll ds1 (l, ctx)).2 hpass

/-- C5, witness: a 5 USD transaction, a passing check of 5 USD, then a
price directive; the run with the check and the run without it agree on all
directly queryable state. -/
theorem balance_check_non_mutation_witness :
    snapGet (processAll [Directive.transaction ⟨1, [⟨"Assets:A", ⟨5, "USD"⟩⟩]⟩]
        (L0, ⟨none⟩)).1.snapshot "Assets:A" "USD" = (5 : ℚ) ∧
    sameCore
      (processAll ([Directive.transaction ⟨1, [⟨"Assets:A", ⟨5, "USD"⟩⟩]⟩] ++
          Directive.balance
            (BalanceD.BalanceCheck ⟨2, "Assets:A", ⟨5, "USD"⟩, none, none⟩) ::
          [Directive.price ⟨3, "USD", ⟨7, "CNY"⟩⟩])
        (L0, ⟨none⟩)).1
      (processAll ([Directive.transaction ⟨1, [⟨"Assets:A", ⟨5, "USD"⟩⟩]⟩] ++
          [Directive.price ⟨3, "USD", ⟨7, "CNY"⟩⟩])
        (L0, ⟨none⟩)).1 := by
  have h : snapGet (processAll [Directive.transaction ⟨1, [⟨"Assets:A", ⟨5, "USD"⟩⟩]⟩]
      (L0, ⟨none⟩)).1.snapshot "Assets:A" "USD" = (5 : ℚ) := by
    norm_num [processAll, processDirective, processTransaction, record_daily_snapshot,
      snapshotAdd, addAmount, inventoryGet, snapGet, lookupKV, insertKV, L0]
  exact ⟨h,
    (balance_check_non_mutation [Directive.transaction ⟨1, [⟨"Assets:A", ⟨5, "USD"⟩⟩]⟩]
      [Directive.price ⟨3, "USD", ⟨7, "CNY"⟩⟩]
      ⟨2, "Assets:A", ⟨5, "USD"⟩, none, none⟩ L0 ⟨none⟩).2 h⟩

/-- C6, counterexample.  Processing a Price directive leaves
`ledger.currencies` untouched (`src/core/process.rs:229` only writes the
grip): with `USD` declared and a `USD → CNY` observation processed, the
`CurrencyInfo` of `USD` still has an empty price map, so the observation is
not recorded in `currencies[base].prices` as the claim requires. -/
theorem price_not_recorded_in_currencies_cex :
    (processPrice ⟨5, "USD", ⟨7, "CNY"⟩⟩
        ⟨[], [("USD", ⟨⟨"USD", []⟩, []⟩)], [], [], [], [], [], []⟩).currencies =
      [("USD", ⟨⟨"USD", []⟩, []⟩)] ∧
    ((lookupKV (processPrice ⟨5, "USD", ⟨7, "CNY"⟩⟩
        ⟨[], [("USD", ⟨⟨"USD", []⟩, []⟩)], [], [], [], [], [], []⟩).currencies "USD").map
      (fun i => lookupKV i.prices ("CNY", 5))) = some none := by
  exact ⟨rfl, by decide⟩

/-- C6 (amended): processing `Price(datetime, base, quote, rate)` inserts
the rate into the dated price grip under (datetime, base, quote), leaves
every other grip entry unchanged, and changes nothing else — in particular
`ledger.currencies` is not updated. -/
theorem price_inserts_grip_only (p : PriceD) (l : Ledger) :
    lookupKV (processPrice p l).prices (p.datetime, p.currency, p.amount.currency) =
      some p.amount.number ∧
    (∀ k : Nat × String × String, k ≠ (p.datetime, p.currency, p.amount.currency) →
      lookupKV (processPrice p l).prices k = lookupKV l.prices k) ∧
    (processPrice p l).currencies = l.currencies ∧
    (processPrice p l).snapshot = l.snapshot ∧
    (processPrice p l).errors = l.errors := by
  refine ⟨?_, ?_, rfl, rfl, rfl⟩
  · exact lookupKV_insertKV_self _ _ _
  · intro k hk
    exact lookupKV_insertKV_ne _ _ _ _ hk

/-- C6, witness: a grip entry under a different key than the inserted one
is untouched. -/
theorem price_inserts_grip_only_witness :
    ((4, "USD", "CNY") : Nat × String × String) ≠ ((5, "USD", "CNY") : Nat × String × String) ∧
    lookupKV (processPrice ⟨5, "USD", ⟨7, "CNY"⟩⟩ L0).prices ((4, "USD", "CNY")) =
      lookupKV L0.prices ((4, "USD", "CNY")) :=
  ⟨by decide,
    (price_inserts_grip_only ⟨5, "USD", ⟨7, "CNY"⟩⟩ L0).2.1 (4, "USD", "CNY") (by decide)⟩

/-- C7, counterexample.  A transaction posting on an account whose status
is `Close` is processed without any error:
`impl DirectiveProcess for Transaction` (`src/core/process.rs:112`) never
inspects account status, so the error list stays empty and no
`TransactionHasAccountAlreadyClosed` is recorded. -/
theorem closed_account_posting_no_error_cex :
    lookupKV (⟨[("Assets:A", ⟨[], AccountStatus.Close, []⟩)],
        [], [], [], [], [], [], []⟩ : Ledger).accounts "Assets:A" =
      some ⟨[], AccountStatus.Close, []⟩ ∧
    (processTransaction ⟨2, [⟨"Assets:A", ⟨10, "USD"⟩⟩]⟩
        (⟨[("Assets:A", ⟨[], AccountStatus.Close, []⟩)],
          [], [], [], [], [], [], []⟩ : Ledger) ⟨none⟩).1.errors = [] :=
  ⟨by decide, rfl⟩

/-- C7 (amended): a posting whose account has status `Close` at processing
time is applied like any other: the error list and the accounts map are
unchanged (so no `TransactionHasAccountAlreadyClosed` is recorded) and the
posting's units are still added to the account's snapshot balance. -/
theorem transaction_closed_account_no_error (t : TransactionD) (l : Ledger)
    (ctx : ProcessContext) (p : Posting) (info : AccountInfo)
    (_hp : p ∈ t.postings) (ha : lookupKV l.accounts p.account = some info)
    (_hs : info.status = AccountStatus.Close) :
    (processTransaction t l ctx).1.errors = l.errors ∧
    lookupKV (processTransaction t l ctx).1.accounts p.account = some info ∧
    snapGet (processTransaction t l ctx).1.snapshot p.account p.units.currency =
      snapGet l.snapshot p.account p.units.currency +
        postingsContrib t.postings p.account p.units.currency := by
  refine ⟨rfl, ha, ?_⟩
  simp only [processTransaction]
  exact snapGet_foldl_postings t.postings l.snapshot p.account p.units.currency

/-- C7, witness: a 10 USD posting on a closed account. -/
theorem transaction_closed_account_no_error_witness :
    ((⟨"Assets:A", ⟨10, "USD"⟩⟩ : Posting) ∈ [(⟨"Assets:A", ⟨10, "USD"⟩⟩ : Posting)] ∧
      lookupKV (⟨[("Assets:A", ⟨[], AccountStatus.Close, []⟩)],
          [], [], [], [], [], [], []⟩ : Ledger).accounts "Assets:A" =
        some ⟨[], AccountStatus.Close, []⟩ ∧
      (⟨[], AccountStatus.Close, []⟩ : AccountInfo).status = AccountStatus.Close) ∧
    (processTransaction ⟨2, [⟨"Assets:A", ⟨10, "USD"⟩⟩]⟩
        (⟨[("Assets:A", ⟨[], AccountStatus.Close, []⟩)],
          [], [], [], [], [], [], []⟩ : Ledger) ⟨none⟩).1.errors =
      (⟨[("Assets:A", ⟨[], AccountStatus.Close, []⟩)],
        [], [], [], [], [], [], []⟩ : Ledger).errors :=
  ⟨⟨by decide, by decide, by decide⟩,
    (transaction_closed_account_no_error ⟨2, [⟨"Assets:A", ⟨10, "USD"⟩⟩]⟩
      (⟨[("Assets:A", ⟨[], AccountStatus.Close, []⟩)],
        [], [], [], [], [], [], []⟩ : Ledger) ⟨none⟩
      ⟨"Assets:A", ⟨10, "USD"⟩⟩ ⟨[], AccountStatus.Close, []⟩
      (by decide) (by decide) (by decide)).1⟩

/-- C8, counterexample.  Closing an account that still holds 5 USD sets the
status to `Close` but records nothing:
`impl DirectiveProcess for Close` (`src/core/process.rs:79`) never inspects
the inventory, so no `AccountClosedWithBalance` appears in the error
list. -/
theorem close_with_balance_no_error_cex :
    snapGet (⟨[("Assets:A", ⟨["USD"], AccountStatus.Open, []⟩)],
        [], [], [], [], [("Assets:A", [("USD", (5 : ℚ))])], [], []⟩ : Ledger).snapshot
      "Assets:A" "USD" = (5 : ℚ) ∧
    (processClose ⟨3, "Assets:A", []⟩
        (⟨[("Assets:A", ⟨["USD"], AccountStatus.Open, []⟩)],
          [], [], [], [], [("Assets:A", [("USD", (5 : ℚ))])], [], []⟩ : Ledger)).errors =
      [] ∧
    (lookupKV (processClose ⟨3, "Assets:A", []⟩
        (⟨[("Assets:A", ⟨["USD"], AccountStatus.Open, []⟩)],
          [], [], [], [], [("Assets:A", [("USD", (5 : ℚ))])], [], []⟩ : Ledger)).accounts
      "Assets:A").map AccountInfo.status = some AccountStatus.Close :=
  ⟨by decide, rfl, by decide⟩

/-- C8 (amended): `Close(date, account, meta)` sets the account's status to
`Close` (creating the entry when absent) and merges the directive's meta
pairs into the account's meta map (with the directive's last binding for a
key winning, and other keys untouched); other accounts are untouched, and
no error is recorded — even when the account's inventory is non-zero. -/
theorem close_sets_status_merges_meta (c : CloseD) (l : Ledger) :
    (processClose c l).errors = l.errors ∧
    (processClose c l).snapshot = l.snapshot ∧
    lookupKV (processClose c l).accounts c.account =
      some ⟨((lookupKV l.accounts c.account).getD ⟨[], AccountStatus.Open, []⟩).currencies,
        AccountStatus.Close,
        c.meta.foldl (fun m kv => insertKV m kv.1 kv.2)
          ((lookupKV l.accounts c.account).getD ⟨[], AccountStatus.Open, []⟩).meta⟩ ∧
    (∀ k : String,
      lookupKV (c.meta.foldl (fun m kv => insertKV m kv.1 kv.2)
          ((lookupKV l.accounts c.account).getD ⟨[], AccountStatus.Open, []⟩).meta) k =
        match lookupLast c.meta k with
        | some v => some v
        | none =>
            lookupKV
              ((lookupKV l.accounts c.account).getD ⟨[], AccountStatus.Open, []⟩).meta k) ∧
    (∀ a : String, a ≠ c.account →
      lookupKV (processClose c l).accounts a = lookupKV l.accounts a) := by
  refine ⟨rfl, rfl, ?_, ?_, ?_⟩
  · simp only [processClose]
    exact lookupKV_insertKV_self _ _ _
  · intro k
    exact lookupKV_foldl_insert _ _ _
  · intro a ha
    simp only [processClose]
    exact lookupKV_insertKV_ne _ _ _ _ ha

/-- C8, witness: closing `Assets:A` leaves the entry of `Assets:B`
untouched. -/
theorem close_sets_status_merges_meta_witness :
    ("Assets:B" : String) ≠ "Assets:A" ∧
    lookupKV (processClose ⟨3, "Assets:A", [("note", "x")]⟩
        (⟨[("Assets:B", ⟨[], AccountStatus.Open, [("k", "v")]⟩)],
          [], [], [], [], [], [], []⟩ : Ledger)).accounts "Assets:B" =
      lookupKV (⟨[("Assets:B", ⟨[], AccountStatus.Open, [("k", "v")]⟩)],
          [], [], [], [], [], [], []⟩ : Ledger).accounts "Assets:B" :=
  ⟨by decide,
    (close_sets_status_merges_meta ⟨3, "Assets:A", [("note", "x")]⟩
      (⟨[("Assets:B", ⟨[], AccountStatus.Open, [("k", "v")]⟩)],
        [], [], [], [], [], [], []⟩ : Ledger)).2.2.2.2 "Assets:B" (by decide)⟩

/-- C9, counterexample.  A transaction posting on `Assets:X`, an account
never opened or closed, leaves `ledger.accounts` empty — no entry with
status `Open` is created — and appends nothing to the error list, while the
account does get a snapshot entry. -/
theorem unknown_account_not_created_cex :
    L0.accounts = [] ∧
    (processTransaction ⟨2, [⟨"Assets:X", ⟨10, "USD"⟩⟩]⟩ L0 ⟨none⟩).1.accounts = [] ∧
    (processTransaction ⟨2, [⟨"Assets:X", ⟨10, "USD"⟩⟩]⟩ L0 ⟨none⟩).1.errors = [] :=
  ⟨rfl, rfl, rfl⟩

/-- C9 (amended): a transaction posting on an account in the `Unknown`
state creates a snapshot entry for the account (starting from the default
empty snapshot), but no `AccountInfo` is created in `ledger.accounts` and
no warning is appended to the ledger's error list. -/
theorem transaction_unknown_account_snapshot_only (t : TransactionD) (l : Ledger)
    (ctx : ProcessContext) :
    (processTransaction t l ctx).1.accounts = l.accounts ∧
    (processTransaction t l ctx).1.errors = l.errors ∧
    ∀ p ∈ t.postings,
      (lookupKV (processTransaction t l ctx).1.snapshot p.account).isSome = true := by
  refine ⟨rfl, rfl, ?_⟩
  intro p hp
  simp only [processTransaction]
  exact mem_postings_foldl_isSome t.postings l.snapshot p hp

/-- C9, witness: a posting on the never-opened `Assets:X`. -/
theorem transaction_unknown_account_snapshot_only_witness :
    ((⟨"Assets:X", ⟨10, "USD"⟩⟩ : Posting) ∈ [(⟨"Assets:X", ⟨10, "USD"⟩⟩ : Posting)]) ∧
    (lookupKV (processTransaction ⟨2, [⟨"Assets:X", ⟨10, "USD"⟩⟩]⟩ L0
        ⟨none⟩).1.snapshot "Assets:X").isSome = true :=
  ⟨by decide,
    (transaction_unknown_account_snapshot_only ⟨2, [⟨"Assets:X", ⟨10, "USD"⟩⟩]⟩ L0
      ⟨none⟩).2.2 ⟨"Assets:X", ⟨10, "USD"⟩⟩ (by decide)⟩

/-- C10: a BalanceCheck never inserts a key into the snapshot map — every
account's entry (present or absent) is exactly as before, and an absent
account reads as zero in every commodity — unlike BalancePad and
Transaction, which do create snapshot entries for the accounts they
touch. -/
theorem balance_check_no_snapshot_insertion (l : Ledger) (ctx : ProcessContext)
    (bc : BalanceCheckD) (bp : BalancePadD) (t : TransactionD) :
    (∀ a : String,
      lookupKV ((processBalance (BalanceD.BalanceCheck bc) l ctx).1).snapshot a =
        lookupKV l.snapshot a) ∧
    (lookupKV l.snapshot bc.account = none →
      snapGet l.snapshot bc.account bc.amount.currency = 0) ∧
    (lookupKV ((processBalance (BalanceD.BalancePad bp) l ctx).1).snapshot
      bp.account).isSome = true ∧
    (lookupKV ((processBalance (BalanceD.BalancePad bp) l ctx).1).snapshot
      bp.pad).isSome = true ∧
    (∀ p ∈ t.postings,
      (lookupKV (processTransaction t l ctx).1.snapshot p.account).isSome = true) := by
  refine ⟨?_, ?_, ?_, ?_, ?_⟩
  · intro a
    by_cases h : snapGet l.snapshot bc.account bc.amount.currency = bc.amount.number <;>
      simp [processBalance, h]
  · intro h
    simp [snapGet, inventoryGet, lookupKV, h]
  · simp only [processBalance]
    exact lookupKV_snapshotAdd_isSome _ _ _ _ _ (lookupKV_snapshotAdd_self_isSome _ _ _ _)
  · simp only [processBalance]
    exact lookupKV_snapshotAdd_self_isSome _ _ _ _
  · intro p hp
    simp only [processTransaction]
    exact mem_postings_foldl_isSome t.postings l.snapshot p hp

/-- C10, witness: on an empty ledger, the checked account `Assets:Z` is
absent, reads as zero, and the pad/transaction contrast holds on concrete
accounts. -/
theorem balance_check_no_snapshot_insertion_witness :
    lookupKV L0.snapshot "Assets:Z" = none ∧
    snapGet L0.snapshot "Assets:Z" "USD" = 0 ∧
    ((⟨"Assets:X", ⟨10, "USD"⟩⟩ : Posting) ∈ [(⟨"Assets:X", ⟨10, "USD"⟩⟩ : Posting)]) ∧
    (lookupKV (processTransaction ⟨2, [⟨"Assets:X", ⟨10, "USD"⟩⟩]⟩ L0
        ⟨none⟩).1.snapshot "Assets:X").isSome = true := by
  have T := balance_check_no_snapshot_insertion L0 ⟨none⟩
    ⟨1, "Assets:Z", ⟨0, "USD"⟩, none, none⟩
    ⟨2, "Assets:C", ⟨1, "USD"⟩, "Equity:P"⟩ ⟨2, [⟨"Assets:X", ⟨10, "USD"⟩⟩]⟩
  exact ⟨rfl, T.2.1 rfl, by decide,
    T.2.2.2.2 ⟨"Assets:X", ⟨10, "USD"⟩⟩ (by decide)⟩

end Avaro
